import Mathlib

/-!
Verification of the Planet notebooks collection: a shallow embedding of the
notebook-level logic (NDVI band arithmetic, date grouping of scene ids,
ground-truth filtering and reprojection, asset-activation polling, order
submission and download bookkeeping) together with theorems about it.
Band values read from the rasters are modelled as naturals and the float
arithmetic exactly over the rationals; the NaN produced by a zero divisor
(division errors are set to be ignored) is modelled as none.
-/

namespace PlanetNotebooks

/-- One pixel of the NDVI computation from the vegetation-index notebook,
ndvi equal to (band_nir.astype(float) - band_red.astype(float)) divided by
(band_nir + band_red): a zero denominator yields NaN (none) instead of
raising, since the notebook sets divide and invalid errors to be ignored. -/
def ndvi_pixel (band_nir band_red : ℕ) : Option ℚ :=
  if band_nir + band_red = 0 then none
  else some (((band_nir : ℚ) - (band_red : ℚ)) / ((band_nir : ℚ) + (band_red : ℚ)))

/-- The whole-array NDVI: the elementwise computation over the two band
arrays, modelled as lists zipped pixelwise. -/
def ndviArr (band_nir band_red : List ℕ) : List (Option ℚ) :=
  (band_nir.zip band_red).map (fun p => ndvi_pixel p.1 p.2)

/-- The exact rational value of the NDVI expression at one pixel,
(nir - red) / (nir + red). -/
def ndvi_q (nir red : ℚ) : ℚ := (nir - red) / (nir + red)

/-- Modelled from the spec: the glossary reference definition of NDVI,
(NIR-Red)/(NIR+Red), written from the spec wording for comparison with the
notebook computation. -/
def ndviGlossaryRef (nir red : ℚ) : ℚ := (nir - red) / (nir + red)

/-- The server-side bandmath tool configuration of the analysis-ready-data
notebook: output band b1 is given by the expression (b4 - b3) / (b4+b3)
over the NIR (b4) and Red (b3) bands. -/
def bandmath_b1 (b4 b3 : ℚ) : ℚ := (b4 - b3) / (b4 + b3)

/-- The histogram input of the vegetation-index notebook, x equal to the
ndvi array restricted to its non-NaN entries. -/
def histInput (l : List (Option ℚ)) : List ℚ := l.filterMap id

/-- np.nanmin over the ndvi array: the minimum of the non-NaN entries. -/
def nanmin (l : List (Option ℚ)) : Option ℚ := (l.filterMap id).min?

/-- np.nanmax over the ndvi array: the maximum of the non-NaN entries. -/
def nanmax (l : List (Option ℚ)) : Option ℚ := (l.filterMap id).max?

/-- C1: for every pair of equal-shape band arrays, at every pixel whose band
sum is nonzero the notebook NDVI value equals the glossary reference
definition (NIR-Red)/(NIR+Red), and the server-side bandmath tool expression
(b4 - b3)/(b4 + b3) is that same function. -/
theorem ndvi_matches_glossary (band_nir band_red : List ℕ)
    (_hlen : band_nir.length = band_red.length) :
    (∀ p ∈ band_nir.zip band_red, p.1 + p.2 ≠ 0 →
      ndvi_pixel p.1 p.2 = some (ndviGlossaryRef (p.1 : ℚ) (p.2 : ℚ))) ∧
    (∀ b4 b3 : ℚ, bandmath_b1 b4 b3 = ndviGlossaryRef b4 b3) := by
  refine ⟨fun p _ hp => ?_, fun b4 b3 => rfl⟩
  simp [ndvi_pixel, ndviGlossaryRef, hp]

/-- Witness for C1 at the one-pixel band arrays [2] and [1]. -/
theorem ndvi_matches_glossary_witness :
    ndvi_pixel 2 1 = some (ndviGlossaryRef 2 1) :=
  (ndvi_matches_glossary [2] [1] rfl).1 (2, 1) (by simp) (by decide)

/-- C2: with nonnegative band values and a positive band sum, the exact
rational NDVI value lies in the closed interval from -1 to 1, as the
glossary promises. -/
theorem ndvi_range (nir red : ℚ) (hn : 0 ≤ nir) (hr : 0 ≤ red)
    (hs : 0 < nir + red) : -1 ≤ ndvi_q nir red ∧ ndvi_q nir red ≤ 1 := by
  unfold ndvi_q
  constructor
  · rw [le_div_iff₀ hs]; linarith
  · rw [div_le_one hs]; linarith

/-- Witness for C2 at nir 3 and red 1. -/
theorem ndvi_range_witness : -1 ≤ ndvi_q 3 1 ∧ ndvi_q 3 1 ≤ 1 :=
  ndvi_range 3 1 (by norm_num) (by norm_num) (by norm_num)

/-- The defined NDVI entries of a pixel list are exactly the values at the
pixels with nonzero band sum. -/
theorem histInput_map_ndvi_pixel (l : List (ℕ × ℕ)) :
    histInput (l.map (fun p => ndvi_pixel p.1 p.2))
      = (l.filter (fun p => p.1 + p.2 ≠ 0)).map (fun p => ndvi_q (p.1 : ℚ) (p.2 : ℚ)) := by
  induction l with
  | nil => rfl
  | cons a t ih =>
    by_cases h : a.1 + a.2 = 0
    · have hx : ndvi_pixel a.1 a.2 = none := by rw [ndvi_pixel, if_pos h]
      have hq : (decide ¬(a.1 + a.2 = 0)) = false := by
        simp only [h, decide_not, decide_eq_true_eq]; simp
      rw [List.map_cons, List.filter_cons]
      simp only [histInput, List.filterMap_cons] at ih ⊢
      rw [hx]
      simpa only [hq, if_false, Bool.false_eq_true] using ih
    · have hx : ndvi_pixel a.1 a.2
          = some (((a.1 : ℚ) - (a.2 : ℚ)) / ((a.1 : ℚ) + (a.2 : ℚ))) := by
        rw [ndvi_pixel, if_neg h]
      rw [List.map_cons, List.filter_cons]
      simp only [histInput, List.filterMap_cons] at ih ⊢
      rw [hx]
      simp only [ne_eq, h, not_false_eq_true, decide_True, if_true, List.map_cons]
      rw [ih]
      rfl

/-- C3: the NDVI computation is total, undefined (NaN, modelled none) exactly
at the pixels with zero band sum, and the histogram input and the
nanmin/nanmax steps operate on exactly the pixels whose result is defined. -/
theorem ndvi_nan_policy (band_nir band_red : List ℕ) :
    ndviArr band_nir band_red
      = (band_nir.zip band_red).map
          (fun p => if p.1 + p.2 = 0 then none else some (ndvi_q (p.1 : ℚ) (p.2 : ℚ))) ∧
    histInput (ndviArr band_nir band_red)
      = ((band_nir.zip band_red).filter (fun p => p.1 + p.2 ≠ 0)).map
          (fun p => ndvi_q (p.1 : ℚ) (p.2 : ℚ)) ∧
    nanmin (ndviArr band_nir band_red)
      = (histInput (ndviArr band_nir band_red)).min? ∧
    nanmax (ndviArr band_nir band_red)
      = (histInput (ndviArr band_nir band_red)).max? := by
  refine ⟨rfl, ?_, rfl, rfl⟩
  exact histInput_map_ndvi_pixel (band_nir.zip band_red)

/-- A Data API search result item as the date-grouping code reads it: its id
and the acquired timestamp string from its properties. -/
structure SceneItem where
  id : String
  acquired : String
deriving DecidableEq

/-- get_acquired_date: splits the acquired timestamp at T and keeps the
first component, that is, the substring of the acquired string before its
first T, the acquired date. -/
def get_acquired_date (item : SceneItem) : String :=
  String.mk (item.acquired.data.takeWhile (fun c => c ≠ 'T'))

/-- get_date_item_ids: the ids of the items whose acquired date equals the
given date, in input order. -/
def get_date_item_ids (date : String) (all_items : List SceneItem) : List String :=
  (all_items.filter (fun i => get_acquired_date i == date)).map SceneItem.id

/-- get_ids_by_date as the finite mapping the python dict denotes: defined on
exactly the acquired dates occurring among the items (the dict is built over
the set of acquired dates) and sending each such date to get_date_item_ids
of that date. -/
def get_ids_by_date (items : List SceneItem) (d : String) : Option (List String) :=
  if d ∈ items.map get_acquired_date then some (get_date_item_ids d items) else none

/-- C4: get_ids_by_date partitions the scene ids by acquired date. Its keys
are exactly the acquired dates of the items; each key maps to the ids of the
items with that date in input order; every item contributes its id to the
group of its own date; and every id in a group comes from an item of that
date of that group. -/
theorem ids_by_date_partition (items : List SceneItem) :
    (∀ d, (get_ids_by_date items d).isSome = true ↔ ∃ i ∈ items, get_acquired_date i = d) ∧
    (∀ d, d ∈ items.map get_acquired_date →
      get_ids_by_date items d
        = some ((items.filter (fun i => get_acquired_date i == d)).map SceneItem.id)) ∧
    (∀ i ∈ items, ∃ l, get_ids_by_date items (get_acquired_date i) = some l ∧ i.id ∈ l) ∧
    (∀ d l s, get_ids_by_date items d = some l → s ∈ l →
      ∃ i ∈ items, i.id = s ∧ get_acquired_date i = d) := by
  refine ⟨?_, ?_, ?_, ?_⟩
  · intro d
    rw [get_ids_by_date]
    by_cases hm : d ∈ items.map get_acquired_date
    · rw [if_pos hm]
      simpa using List.mem_map.mp hm
    · rw [if_neg hm]
      simp only [Option.isSome_none, Bool.false_eq_true, false_iff]
      intro ⟨i, hi, hd⟩
      exact hm (List.mem_map.mpr ⟨i, hi, hd⟩)
  · intro d hm
    rw [get_ids_by_date, if_pos hm]
    rfl
  · intro i hi
    have hm : get_acquired_date i ∈ items.map get_acquired_date :=
      List.mem_map.mpr ⟨i, hi, rfl⟩
    refine ⟨get_date_item_ids (get_acquired_date i) items, ?_, ?_⟩
    · rw [get_ids_by_date, if_pos hm]
    · exact List.mem_map.mpr
        ⟨i, List.mem_filter.mpr ⟨hi, by simp⟩, rfl⟩
  · intro d l s hsome hs
    rw [get_ids_by_date] at hsome
    by_cases hm : d ∈ items.map get_acquired_date
    · rw [if_pos hm] at hsome
      have hl : l = get_date_item_ids d items := by
        exact (Option.some.injEq _ _).mp hsome.symm
      subst hl
      obtain ⟨i, hif, hid⟩ := List.mem_map.mp hs
      have hmem := List.mem_filter.mp hif
      exact ⟨i, hmem.1, hid, by simpa using hmem.2⟩
    · rw [if_neg hm] at hsome
      exact absurd hsome (by simp)

/-- The reference single-pass grouping: one left fold over the items,
extending the group of the acquired date of each item as it is met. -/
def ids_by_date_single_pass (items : List SceneItem) : String → List String :=
  items.foldl
    (fun m i => fun d => if get_acquired_date i == d then m d ++ [i.id] else m d)
    (fun _ => [])

/-- The single-pass fold from any accumulator: the group of each date grows by
exactly the matching ids of the traversed items, in input order. -/
theorem single_pass_foldl (d : String) :
    ∀ (items : List SceneItem) (m : String → List String),
      (items.foldl
        (fun m i => fun d => if get_acquired_date i == d then m d ++ [i.id] else m d) m) d
        = m d ++ get_date_item_ids d items := by
  intro items
  induction items with
  | nil => intro m; simp [get_date_item_ids]
  | cons i t ih =>
    intro m
    rw [List.foldl_cons, ih]
    by_cases h : get_acquired_date i == d
    · simp [get_date_item_ids, List.filter_cons, h, List.append_assoc]
    · simp [get_date_item_ids, List.filter_cons, h]

/-- C5: the mapping computed by get_ids_by_date, which rescans the item list
once per distinct acquired date, equals the mapping produced by the
reference single-pass fold over the items. -/
theorem ids_by_date_single_pass_equiv (items : List SceneItem) (d : String) :
    get_ids_by_date items d
      = if ids_by_date_single_pass items d = [] then none
        else some (ids_by_date_single_pass items d) := by
  have hsp : ids_by_date_single_pass items d = get_date_item_ids d items := by
    rw [ids_by_date_single_pass, single_pass_foldl d items (fun _ => [])]
    rfl
  rw [hsp, get_ids_by_date]
  by_cases hm : d ∈ items.map get_acquired_date
  · obtain ⟨i, hi, hd⟩ := List.mem_map.mp hm
    have hne : get_date_item_ids d items ≠ [] := by
      intro hnil
      have : i.id ∈ get_date_item_ids d items :=
        List.mem_map.mpr ⟨i, List.mem_filter.mpr ⟨hi, by simp [hd]⟩, rfl⟩
      rw [hnil] at this
      exact List.not_mem_nil _ this
    rw [if_pos hm, if_neg hne]
  · have hnil : get_date_item_ids d items = [] := by
      rw [get_date_item_ids]
      rw [List.map_eq_nil_iff]
      rw [List.filter_eq_nil_iff]
      intro i hi
      simp only [beq_iff_eq]
      intro hd
      exact hm (List.mem_map.mpr ⟨i, hi, hd⟩)
    rw [if_neg hm, if_pos hnil]

/-- A ground-truth survey feature as the crop-filtering code reads it: the
CLASS1 attribute of its properties, its geometry (of an abstract coordinate
type G) and its remaining property fields. -/
structure Feature (G : Type) where
  class1 : String
  geometry : G
  props : List (String × String)

/-- agg_classes: the eight agricultural class labels of the survey legend. -/
def agg_classes : List String := ["G", "R", "F", "P", "T", "D", "C", "V"]

/-- is_agricultural: membership of the CLASS1 attribute in agg_classes. -/
def is_agricultural {G : Type} (feat : Feature G) : Bool :=
  agg_classes.contains feat.class1

/-- project_feature: replaces the geometry of the feature with its
reprojection (the pyproj transform to EPSG 4326, modelled as an abstract
function on geometries), leaving the rest of the feature unchanged. -/
def project_feature {G : Type} (project : G → G) (feat : Feature G) : Feature G :=
  { feat with geometry := project feat.geometry }

/-- load_ground_truth: the loading loop over the survey features, keeping
each agricultural feature after reprojecting it, in input order. -/
def load_ground_truth {G : Type} (project : G → G)
    (survey_data : List (Feature G)) : List (Feature G) :=
  survey_data.foldl
    (fun features feat =>
      if is_agricultural feat then features ++ [project_feature project feat]
      else features)
    []

/-- The append-style left fold over a filtered traversal, from any
accumulator. -/
theorem foldl_filter_append {α β : Type} (p : α → Bool) (g : α → β) :
    ∀ (l : List α) (acc : List β),
      l.foldl (fun acc a => if p a then acc ++ [g a] else acc) acc
        = acc ++ (l.filter p).map g := by
  intro l
  induction l with
  | nil => intro acc; simp
  | cons a t ih =>
    intro acc
    rw [List.foldl_cons, List.filter_cons]
    by_cases h : p a
    · rw [if_pos h, if_pos h, ih, List.map_cons, List.append_assoc]
      rfl
    · rw [if_neg h, if_neg h, ih]

/-- C6: load_ground_truth returns exactly the subsequence of features whose
CLASS1 attribute is one of the eight agricultural labels, in input order,
with the geometry of each retained feature replaced by its reprojection and
its other fields unchanged. -/
theorem load_ground_truth_spec {G : Type} (project : G → G)
    (survey_data : List (Feature G)) :
    load_ground_truth project survey_data
      = (survey_data.filter is_agricultural).map (project_feature project) ∧
    (∀ f : Feature G, is_agricultural f = true ↔
      (f.class1 = "G" ∨ f.class1 = "R" ∨ f.class1 = "F" ∨ f.class1 = "P" ∨
       f.class1 = "T" ∨ f.class1 = "D" ∨ f.class1 = "C" ∨ f.class1 = "V")) ∧
    (∀ f : Feature G, (project_feature project f).geometry = project f.geometry ∧
      (project_feature project f).class1 = f.class1 ∧
      (project_feature project f).props = f.props) := by
  refine ⟨?_, ?_, ?_⟩
  · rw [load_ground_truth]
    rw [foldl_filter_append is_agricultural (project_feature project) survey_data []]
    rfl
  · intro f
    simp [is_agricultural, agg_classes]
  · intro f
    exact ⟨rfl, rfl, rfl⟩

/-- An asset entry of an assets response from the Data API: we model only
the status field the polling loop reads. -/
structure AssetEntry where
  status : String
deriving DecidableEq

/-- The state of the activation polling loop: the asset_activated flag and
the assets response most recently fetched. -/
structure PollState where
  asset_activated : Bool
  assets : AssetEntry
deriving DecidableEq

/-- One iteration of the activation polling loop body: it fetches the next
server response into assets, but reads asset_status from the analytic_asset
object captured before the loop, which no iteration updates; it sets
asset_activated when that stale status reads active. -/
def poll_body (server : ℕ → AssetEntry) (analytic_asset : AssetEntry) (k : ℕ)
    (st : PollState) : PollState :=
  let assets := server k
  let asset_status := analytic_asset.status
  { asset_activated := if asset_status == "active" then true else st.asset_activated,
    assets := assets }

/-- The polling while-loop after n iterations, started not activated with the
pre-loop assets response; it stops iterating once asset_activated holds. -/
def poll_loop (server : ℕ → AssetEntry) (analytic_asset : AssetEntry)
    (assets0 : AssetEntry) : ℕ → PollState
  | 0 => { asset_activated := false, assets := assets0 }
  | n + 1 =>
    let st := poll_loop server analytic_asset assets0 n
    if st.asset_activated then st else poll_body server analytic_asset n st

/-- C7 exhibits the polling bug: when the analytic asset captured before the
loop reads inactive, the loop never sets asset_activated even though every
response fetched from the server reports active; and when the captured
status reads active, the loop exits after one iteration even though the
response just fetched reports inactive. -/
theorem asset_polling_reads_stale_status :
    (∀ n : ℕ,
      (poll_loop (fun _ => ⟨"active"⟩) ⟨"inactive"⟩ ⟨"inactive"⟩ n).asset_activated
        = false) ∧
    (poll_loop (fun _ => ⟨"inactive"⟩) ⟨"active"⟩ ⟨"active"⟩ 1).asset_activated = true ∧
    (poll_loop (fun _ => ⟨"inactive"⟩) ⟨"active"⟩ ⟨"active"⟩ 1).assets.status
      = "inactive" := by
  refine ⟨?_, by decide, by decide⟩
  intro n
  induction n with
  | zero => rfl
  | succ k ih => simp [poll_loop, poll_body, ih]

/-- A python exception as the notebooks see one: the NameError raised by a
possibly-undefined notebook variable, or any failure raised by an underlying
library or HTTP call. -/
inductive PyError where
  | nameError : PyError
  | libraryError : String → PyError
deriving DecidableEq

/-- The exception types named by the except clauses present across the four
notebooks: the two handlers of the dataset-identification notebook, both for
NameError (deleting a possibly-undefined map, reusing its center and zoom);
no other handler exists in the repository. -/
def notebook_except_clauses : List String := ["NameError", "NameError"]

/-- Semantics of the try/except-NameError-pass handler pattern used for the
two handlers: a NameError from the body is swallowed and the fallback value
kept, while any other exception is re-raised unchanged. -/
def except_nameError_pass {α : Type} (body : Except PyError α) (onCaught : α) :
    Except PyError α :=
  match body with
  | Except.error PyError.nameError => Except.ok onCaught
  | r => r

/-- Sequential execution of notebook cells: run in order, stopping at the
first raised exception, which reaches the top level of the notebook. -/
def run_cells (cells : List (Except PyError Unit)) : Except PyError Unit :=
  match cells with
  | [] => Except.ok ()
  | c :: rest =>
    match c with
    | Except.ok _ => run_cells rest
    | Except.error e => Except.error e

/-- C8: the only exception handlers present in the notebooks catch NameError;
the handler pattern re-raises every library or HTTP failure unchanged while
swallowing only NameError; and a failure raised in any cell propagates
unchanged to the top level of the sequential run. -/
theorem exceptions_propagate_nameerror_only :
    notebook_except_clauses.all (fun t => t == "NameError") = true ∧
    (∀ (α : Type) (a : α) (msg : String),
      except_nameError_pass (Except.error (PyError.libraryError msg)) a
        = Except.error (PyError.libraryError msg)) ∧
    (∀ (α : Type) (a : α),
      except_nameError_pass (Except.error PyError.nameError) a = Except.ok a) ∧
    (∀ (n : ℕ) (e : PyError) (rest : List (Except PyError Unit)),
      run_cells (List.replicate n (Except.ok ()) ++ Except.error e :: rest)
        = Except.error e) := by
  refine ⟨rfl, fun α a msg => rfl, fun α a => rfl, ?_⟩
  intro n e rest
  induction n with
  | zero => rfl
  | succ k ih => simpa [List.replicate_succ, run_cells] using ih

/-- The order submission limit of the analysis-ready-data notebook. -/
def order_limit : ℕ := 2

/-- The submission loop: iterate over the first order_limit built order
requests (the python slice up to order_limit), appending the created order
for each one. -/
def submit_orders {Req Ord : Type} (create_order : Req → Ord)
    (list_of_order_requests : List Req) : List Ord :=
  (list_of_order_requests.take order_limit).foldl
    (fun list_orders r => list_orders ++ [create_order r]) []

/-- The loop collecting the id of each submitted order into order_id_list. -/
def order_id_list {Ord : Type} (order_id : Ord → String)
    (list_orders : List Ord) : List String :=
  list_orders.foldl (fun acc o => acc ++ [order_id o]) []

/-- The pair of waits gathered by the download step: client.wait on the
first and on the second element of the order id list; python indexing is
partial, modelled with Option. -/
def wait_targets (ids : List String) : Option (List String) :=
  match ids.get? 0, ids.get? 1 with
  | some a, some b => some [a, b]
  | _, _ => none

/-- The pair of downloads gathered afterwards: client.download_order on the
first and on the second element of the order id list. -/
def download_targets (ids : List String) : Option (List String) :=
  match ids.get? 0, ids.get? 1 with
  | some a, some b => some [a, b]
  | _, _ => none

/-- The append-style left fold over a plain traversal, from any
accumulator. -/
theorem foldl_append_map {α β : Type} (g : α → β) :
    ∀ (l : List α) (acc : List β),
      l.foldl (fun acc a => acc ++ [g a]) acc = acc ++ l.map g := by
  intro l
  induction l with
  | nil => intro acc; simp
  | cons a t ih =>
    intro acc
    rw [List.foldl_cons, ih, List.map_cons, List.append_assoc]
    rfl

/-- C9: the submission step creates orders for exactly the first min(2, n)
of the n built requests; the id list collects their ids in order; and the
wait and download steps each target exactly the first and second order ids,
nothing else. -/
theorem orders_first_two (Req Ord : Type) (create_order : Req → Ord)
    (order_id : Ord → String) (reqs : List Req) :
    submit_orders create_order reqs = (reqs.take 2).map create_order ∧
    (submit_orders create_order reqs).length = min 2 reqs.length ∧
    order_id_list order_id (submit_orders create_order reqs)
      = ((reqs.take 2).map create_order).map order_id ∧
    (∀ (a b : String) (rest : List String),
      wait_targets (a :: b :: rest) = some [a, b] ∧
      download_targets (a :: b :: rest) = some [a, b]) := by
  have hsub : submit_orders create_order reqs = (reqs.take 2).map create_order := by
    rw [submit_orders, order_limit, foldl_append_map]
    rfl
  refine ⟨hsub, ?_, ?_, fun a b rest => ⟨rfl, rfl⟩⟩
  · rw [hsub, List.length_map, List.length_take]
  · rw [hsub, order_id_list, foldl_append_map]
    rfl

/-- A parsed manifest.json: the path field of each entry of its files
list. -/
structure Manifest where
  files : List String

/-- os.path.join of three relative components. -/
def os_path_join3 (a b c : String) : String := a ++ "/" ++ b ++ "/" ++ c

/-- get_download_locations with the module-level list locations made an
explicit argument and result: for each order id it reads the manifest under
download_dir, builds the per-order location list under the module-level
data_dir, and appends it to the module-level list, which it returns.
read_manifest models opening and json-loading the manifest file. -/
def get_download_locations (read_manifest : String → Manifest) (data_dir : String)
    (locations : List (List String)) (download_dir : String)
    (order_id_list : List String) : List (List String) :=
  order_id_list.foldl
    (fun locations order_id =>
      let manifest_file := os_path_join3 download_dir order_id "manifest.json"
      let manifest := read_manifest manifest_file
      let location := manifest.files.map (fun p => os_path_join3 data_dir order_id p)
      locations ++ [location])
    locations

/-- The per-order location list built for one order id. -/
def order_locations (read_manifest : String → Manifest)
    (data_dir download_dir order_id : String) : List String :=
  ((read_manifest (os_path_join3 download_dir order_id "manifest.json")).files).map
    (fun p => os_path_join3 data_dir order_id p)

/-- get_download_locations appends the per-order location lists of its
argument ids to the accumulated module-level list. -/
theorem get_download_locations_append (read_manifest : String → Manifest)
    (data_dir download_dir : String) :
    ∀ (ids : List String) (acc : List (List String)),
      get_download_locations read_manifest data_dir acc download_dir ids
        = acc ++ ids.map (order_locations read_manifest data_dir download_dir) := by
  intro ids
  induction ids with
  | nil => intro acc; simp [get_download_locations]
  | cons i t ih =>
    intro acc
    simp only [get_download_locations, List.foldl_cons] at ih ⊢
    rw [ih, List.map_cons, List.append_assoc]
    rfl

/-- C10: the module-level locations list accumulates across calls: a second
call returns the per-order lists of the first call followed by those of the
second call, and a repeated call with the same order id list returns each
per-order list twice rather than starting fresh. -/
theorem download_locations_accumulate (read_manifest : String → Manifest)
    (data_dir download_dir : String) (s : List (List String))
    (ids1 ids2 : List String) :
    get_download_locations read_manifest data_dir
        (get_download_locations read_manifest data_dir s download_dir ids1)
        download_dir ids2
      = s ++ ids1.map (order_locations read_manifest data_dir download_dir)
          ++ ids2.map (order_locations read_manifest data_dir download_dir) ∧
    get_download_locations read_manifest data_dir
        (get_download_locations read_manifest data_dir [] download_dir ids1)
        download_dir ids1
      = ids1.map (order_locations read_manifest data_dir download_dir)
          ++ ids1.map (order_locations read_manifest data_dir download_dir) := by
  constructor
  · rw [get_download_locations_append, get_download_locations_append]
  · rw [get_download_locations_append, get_download_locations_append]
    rfl

end PlanetNotebooks
